import Mathlib

/-!
A verification development for lib/Importer/ONNXIFILoader.cpp of the glow
repository (C++ namespace glow::onnxifi).

The translation unit is embedded shallowly:

* the protobuf message types, the ONNXIFI tensor-descriptor struct and the
  numeric tags from onnx.pb.h / onnxifi.h are modelled at their interface
  boundary as plain structures over Nat / Int / String / List;
* glow's Tensor is modelled by its element kind, its shape and the list of
  scalar values held in its payload (a buffer element is an Int: the float
  path copies elements verbatim and performs no arithmetic on them, the
  integer path reads signed 64-bit values and converts them to size_t);
* assert(false) and llvm_unreachable, which halt the process, are modelled
  as a distinguished fatal outcome, kept apart from the recoverable
  boolean/null failure results;
* C++ std::map subscript assignment and try_emplace are modelled on
  association lists keyed by name;
* members of the ONNXModelLoader base class that live in another translation
  unit (loadProto, setVersion, loadNetwork, setOutputNodes,
  createAndRememberVariable) are modelled from the spec at their interface;
  see the individual doc comments.
-/

namespace glow
namespace onnxifi

/-- Numeric tag of ONNX_NAMESPACE::TensorProto::FLOAT (onnx.pb.h). -/
def TensorProto_FLOAT : Nat := 1

/-- Numeric tag of ONNX_NAMESPACE::TensorProto::INT64 (onnx.pb.h). -/
def TensorProto_INT64 : Nat := 7

/-- Numeric tag ONNXIFI_DATATYPE_FLOAT32 from onnxifi.h. -/
def ONNXIFI_DATATYPE_FLOAT32 : Nat := 1

/-- Numeric tag ONNXIFI_DATATYPE_INT64 from onnxifi.h. -/
def ONNXIFI_DATATYPE_INT64 : Nat := 7

/-- Numeric tag ONNXIFI_DATATYPE_UINT64 from onnxifi.h. -/
def ONNXIFI_DATATYPE_UINT64 : Nat := 13

/-- Numeric tag ONNXIFI_MEMORY_TYPE_CPU from onnxifi.h: host-addressable
CPU memory.  Every other tag denotes device-resident memory. -/
def ONNXIFI_MEMORY_TYPE_CPU : Nat := 0

/-- The fragment of glow's ElemKind enum used by this translation unit. -/
inductive ElemKind where
  | FloatTy
  | Int8QTy
  | Int32QTy
  | IndexTy
deriving DecidableEq

/-- The fragment of glow's Kinded::Kind node-kind enum used by
ModelLoader::parseOperator. -/
inductive KindedKind where
  | ConvolutionNodeKind
  | ReluNodeKind
  | SoftMaxNodeKind
deriving DecidableEq

/-- ONNX TensorShapeProto: the ordered dim_value sequence of the declared
shape (dimension sizes are stored into std::vector of size_t, hence Nat). -/
structure TensorShapeProto where
  dim : List Nat
deriving DecidableEq

/-- ONNX TypeProto::Tensor: declared element type tag plus declared shape. -/
structure TensorTypeProto where
  elem_type : Nat
  shape : TensorShapeProto
deriving DecidableEq

/-- ONNX TypeProto, of which this file only reads the tensor_type field. -/
structure TypeProto where
  tensor_type : TensorTypeProto
deriving DecidableEq

/-- ONNX ValueInfoProto: a named, typed graph input. -/
structure ValueInfoProto where
  name : String
  type : TypeProto
deriving DecidableEq

/-- ONNX NodeProto, of which this file only reads the op_type field. -/
structure NodeProto where
  op_type : String
deriving DecidableEq

/-- ONNX GraphProto: declared inputs, operator nodes and declared outputs. -/
structure GraphProto where
  input : List ValueInfoProto
  node : List NodeProto
  output : List ValueInfoProto
deriving DecidableEq

/-- ONNX ModelProto, of which this file reads the graph (the version
metadata consumed by setVersion is delegated to the base class). -/
structure ModelProto where
  graph : GraphProto
deriving DecidableEq

/-- Glow Tensor, modelled by its element kind, its shape and the scalar
values held in its payload.  A shape-only tensor produced by
setTensorType carries no valid data, modelled by an empty payload. -/
structure Tensor where
  elemKind : ElemKind
  shape : List Nat
  data : List Int
deriving DecidableEq

/-- Number of elements of a tensor type, as computed by glow's
Type::size(): the product of the dimension sizes, 1 for a scalar. -/
def listProd (l : List Nat) : Nat := l.foldl (fun a b => a * b) 1

/-- Embeds static void setTensorType(const TypeProto &in, Tensor *T)
(ONNXIFILoader.cpp lines 27-42).  The final assert(false) branch, which
halts the process, is the error outcome. -/
def setTensorType (t : TypeProto) : Except String Tensor :=
  let dim := t.tensor_type.shape.dim
  if t.tensor_type.elem_type = TensorProto_FLOAT then
    Except.ok ⟨ElemKind.FloatTy, dim, []⟩
  else if t.tensor_type.elem_type = TensorProto_INT64 then
    Except.ok ⟨ElemKind.IndexTy, dim, []⟩
  else
    Except.error "Only float and index tensors are supported"

/-- Glow VisibilityKind (fragment used here). -/
inductive VisibilityKind where
  | Public
  | Private
deriving DecidableEq

/-- Glow Variable: a named graph-input placeholder owning a tensor. -/
structure Variable where
  name : String
  tensor : Tensor
  visibility : VisibilityKind
deriving DecidableEq

/-- Modelled from the spec: createAndRememberVariable is a base-class
(ONNXModelLoader/ProtobufLoader) helper missing from this translation
unit; per the spec it wraps the tensor in a NamedVariable with the given
name and visibility and records it in the loader's symbol table.  Only
the returned variable is relevant to the claims. -/
def createAndRememberVariable (name : String) (T : Tensor)
    (vis : VisibilityKind) : Variable :=
  ⟨name, T, vis⟩

/-- Association-list lookup, the lookup semantics shared by the std::map
members tensors_ and onnxNameToInputVars_. -/
def assocFind {α : Type} : List (String × α) → String → Option α
  | [], _ => none
  | p :: rest, k => if p.1 = k then some p.2 else assocFind rest k

/-- Embeds std::map::try_emplace: insert only when the key is absent. -/
def tryEmplace {α : Type} (m : List (String × α)) (k : String) (v : α) :
    List (String × α) :=
  match assocFind m k with
  | some _ => m
  | none => m ++ [(k, v)]

/-- Embeds std::map subscript assignment (m[k] = v): insert or overwrite. -/
def mapAssign {α : Type} : List (String × α) → String → α → List (String × α)
  | [], k, v => [(k, v)]
  | p :: rest, k, v =>
    if p.1 = k then (k, v) :: rest else p :: mapAssign rest k v

/-- Loop body of ModelLoader::loadInputs (lines 44-52), iterating the
declared graph inputs in declaration order and threading the
onnxNameToInputVars_ map.  A fatal setTensorType halts the whole loop. -/
def loadInputsAux :
    List ValueInfoProto → List (String × Variable) →
    Except String (List (String × Variable))
  | [], m => Except.ok m
  | inp :: rest, m =>
    match setTensorType inp.type with
    | Except.error msg => Except.error msg
    | Except.ok T =>
        loadInputsAux rest
          (tryEmplace m inp.name
            (createAndRememberVariable inp.name T VisibilityKind.Public))

/-- Embeds void ModelLoader::loadInputs(GraphProto &net): the resulting
value is the onnxNameToInputVars_ map (initially empty in a fresh
loader). -/
def loadInputs (net : GraphProto) :
    Except String (List (String × Variable)) :=
  loadInputsAux net.input []

/-- The ONNXIFI weight descriptor onnxTensorDescriptorV1 (onnxifi.h),
borrowed from the caller.  The shape pointer is modelled as the function
giving the i-th stated dimension size; the raw buffer is modelled as the
function giving the i-th scalar it holds under the pointer cast of the
branch that reads it (float values for the float branch, signed 64-bit
integer values for the integer branch). -/
structure onnxTensorDescriptorV1 where
  name : String
  memoryType : Nat
  dataType : Nat
  dimensions : Nat
  shape : Nat → Nat
  buffer : Nat → Int

/-- The dims vector built by loadWeight's first loop (lines 61-64): the
first dimensions entries of the descriptor's shape array. -/
def descDims (d : onnxTensorDescriptorV1) : List Nat :=
  (List.range d.dimensions).map d.shape

/-- Bit width of size_t on the build platform (LP64: 64 bits). -/
def sizeTBits : Nat := 64

/-- The C++ conversion from int64_t to size_t performed by the
assignment TH.raw(i) = data[i] in the integer branch: reduction modulo
2 ^ sizeTBits, yielding a value in [0, 2 ^ sizeTBits). -/
def int64ToSizeT (v : Int) : Nat := (v % ((2 : Int) ^ sizeTBits)).toNat

/-- Outcome of loadWeight: recoverable failure (return false), fatal
halt (llvm_unreachable), or a materialized tensor (return true). -/
inductive LoadWeightResult where
  | fail
  | fatal (msg : String)
  | ok (T : Tensor)
deriving DecidableEq

/-- Embeds static bool loadWeight(const onnxTensorDescriptorV1 &in,
Tensor *T) (lines 55-88).  The copy loops run for TH.size() iterations,
TH.size() being the element count of the freshly reset tensor, i.e. the
product of the stated dimension sizes. -/
def loadWeight (d : onnxTensorDescriptorV1) : LoadWeightResult :=
  if d.memoryType ≠ ONNXIFI_MEMORY_TYPE_CPU then
    LoadWeightResult.fail
  else if d.dataType = ONNXIFI_DATATYPE_FLOAT32 then
    LoadWeightResult.ok
      ⟨ElemKind.FloatTy, descDims d,
        (List.range (listProd (descDims d))).map (fun i => d.buffer i)⟩
  else if d.dataType = ONNXIFI_DATATYPE_UINT64 then
    LoadWeightResult.ok
      ⟨ElemKind.IndexTy, descDims d,
        (List.range (listProd (descDims d))).map
          (fun i => (int64ToSizeT (d.buffer i) : Int))⟩
  else
    LoadWeightResult.fatal "Only float and index tensors are supported"

/-- Outcome of loadWeights: a fatal halt propagated from loadWeight, or
the returned boolean together with the tensors_ map at that point. -/
inductive LoadWeightsResult where
  | fatal (msg : String)
  | res (success : Bool) (tensors : List (String × Tensor))
deriving DecidableEq

/-- Loop body of ModelLoader::loadWeights (lines 90-103), threading the
tensors_ member map.  On a false return from loadWeight the function
returns false at once, leaving the map as already populated; on success
the tensor is stored with subscript assignment under the descriptor's
name. -/
def loadWeightsFrom (tensors : List (String × Tensor)) :
    List onnxTensorDescriptorV1 → LoadWeightsResult
  | [] => LoadWeightsResult.res true tensors
  | d :: rest =>
    match loadWeight d with
    | LoadWeightResult.fatal msg => LoadWeightsResult.fatal msg
    | LoadWeightResult.fail => LoadWeightsResult.res false tensors
    | LoadWeightResult.ok T => loadWeightsFrom (mapAssign tensors d.name T) rest

/-- Embeds bool ModelLoader::loadWeights(uint32_t weightsCount, const
onnxTensorDescriptorV1 *weightDescriptors) on a fresh loader whose
tensors_ map is empty; the descriptor array with its count is modelled
as the list of its first weightsCount entries. -/
def loadWeights (descs : List onnxTensorDescriptorV1) : LoadWeightsResult :=
  loadWeightsFrom [] descs

/-- The loader state observable through a successful parse: the
input-name map built by loadInputs and the tensors_ map built by
loadWeights. -/
structure ModelLoaderState where
  onnxNameToInputVars : List (String × Variable)
  tensors : List (String × Tensor)
deriving DecidableEq

/-- Embeds std::unique_ptr of ModelLoader ModelLoader::parse(...) (lines
105-132).  External stages modelled from the spec at their interface:
the byte buffer is represented by its deserialization outcome
loadProtoResult (ONNXModelLoader::loadProto returns true exactly when
the bytes deserialize, filling the ModelProto); setVersion only records
version metadata and cannot fail; loadNetwork and setOutputNodes are the
graph-builder and output-resolution collaborators, modelled by their
success verdict on the parsed graph.  The Except.error outcome is the
fatal halt propagated from setTensorType; Except.ok none is the nullptr
return. -/
def parse (loadProtoResult : Option ModelProto)
    (loadNetwork : GraphProto → Bool) (setOutputNodes : GraphProto → Bool)
    (weightDescriptors : List onnxTensorDescriptorV1) :
    Except String (Option ModelLoaderState) :=
  match loadProtoResult with
  | none => Except.ok none
  | some modelDef =>
    let graphDef := modelDef.graph
    match loadInputs graphDef with
    | Except.error msg => Except.error msg
    | Except.ok inputVars =>
      match loadWeights weightDescriptors with
      | LoadWeightsResult.fatal msg => Except.error msg
      | LoadWeightsResult.res false _ => Except.ok none
      | LoadWeightsResult.res true tensors =>
        if loadNetwork graphDef then
          if setOutputNodes graphDef then
            Except.ok (some ⟨inputVars, tensors⟩)
          else Except.ok none
        else Except.ok none

/-- The node-count check and operator-name lookup table of
ModelLoader::parseOperator (lines 141-163), applied to a decoded model. -/
def parseOperatorBody (modelDef : ModelProto) :
    Option (KindedKind × ElemKind) :=
  let graph := modelDef.graph
  if graph.node.length ≠ 1 then none
  else
    match graph.node with
    | [] => none
    | node0 :: _ =>
      if node0.op_type = "conv" then
        some (KindedKind.ConvolutionNodeKind, ElemKind.FloatTy)
      else if node0.op_type = "Relu" then
        some (KindedKind.ReluNodeKind, ElemKind.FloatTy)
      else if node0.op_type = "Softmax" then
        some (KindedKind.SoftMaxNodeKind, ElemKind.FloatTy)
      else none

/-- Embeds ModelLoader::parseOperator (lines 134-166).  The source tests
the loadProto return value WITHOUT negation (unlike parse, which tests
!loadProto), so it returns nullptr exactly when deserialization
succeeds, and otherwise continues with the local ModelProto modelDef
still in its default-constructed state, whose graph is empty. -/
def parseOperator (loadProtoResult : Option ModelProto) :
    Option (KindedKind × ElemKind) :=
  match loadProtoResult with
  | some _ => none
  | none => parseOperatorBody ⟨⟨[], [], []⟩⟩

/-- The copy contract of a materialized weight: loadWeight succeeds and
the tensor's shape is the stated dims, its element count the product of
the stated dims, and each element the corresponding source element under
the branch's conversion (identity for float32, int64-to-size_t narrowing
for the integer kind). -/
def CopiesExactly (d : onnxTensorDescriptorV1) : Prop :=
  ∃ T, loadWeight d = LoadWeightResult.ok T ∧
    T.shape = descDims d ∧
    T.data.length = listProd (descDims d) ∧
    ∀ i, i < listProd (descDims d) →
      T.data.get? i =
        some (if d.dataType = ONNXIFI_DATATYPE_UINT64
              then (int64ToSizeT (d.buffer i) : Int) else d.buffer i)

/-- The read-frame contract of a materialized weight: loadWeight reads
only the memory type, the data type, the first dimensions entries of the
shape array and the first product-many buffer elements, so its result is
unchanged under any descriptor agreeing there. -/
def ReadsExactly (d : onnxTensorDescriptorV1) : Prop :=
  ∀ d2 : onnxTensorDescriptorV1,
    d2.memoryType = d.memoryType → d2.dataType = d.dataType →
    d2.dimensions = d.dimensions →
    (∀ i, i < d.dimensions → d2.shape i = d.shape i) →
    (∀ i, i < listProd (descDims d) → d2.buffer i = d.buffer i) →
    loadWeight d2 = loadWeight d

/-- Full materialization contract: exact copy plus exact read frame. -/
def MaterializesExactly (d : onnxTensorDescriptorV1) : Prop :=
  CopiesExactly d ∧ ReadsExactly d

/-- The variable that loadInputs registers for a declared graph input
(the default in the error branch is never used: registration only
happens after setTensorType succeeded). -/
def varOfInput (inp : ValueInfoProto) : Variable :=
  ⟨inp.name,
    (match setTensorType inp.type with
     | Except.ok T => T
     | Except.error _ => ⟨ElemKind.FloatTy, [], []⟩),
    VisibilityKind.Public⟩

/-- A model whose graph holds exactly one node, named Relu. -/
def reluModelProto : ModelProto := ⟨⟨[], [⟨"Relu"⟩], []⟩⟩

/-- An empty decoded model (no inputs, no nodes, no outputs). -/
def modelEmpty : ModelProto := ⟨⟨[], [], []⟩⟩

/-- A scalar float32 CPU descriptor named w whose single element is 1. -/
def cwFloat1 : onnxTensorDescriptorV1 :=
  ⟨"w", 0, 1, 0, fun _ => 0, fun _ => 1⟩

/-- A scalar float32 CPU descriptor named w whose single element is 2. -/
def cwFloat2 : onnxTensorDescriptorV1 :=
  ⟨"w", 0, 1, 0, fun _ => 0, fun _ => 2⟩

/-- A descriptor named w whose memory is not host-addressable
(memoryType 1 denotes a device-resident buffer). -/
def cwDev : onnxTensorDescriptorV1 :=
  ⟨"w", 1, 1, 0, fun _ => 0, fun _ => 0⟩

/-- A CPU descriptor tagged ONNXIFI_DATATYPE_INT64 (shape [2]). -/
def cwInt64 : onnxTensorDescriptorV1 :=
  ⟨"idx", 0, 7, 1, fun _ => 2, fun _ => 0⟩

/-- A CPU descriptor tagged with the unsupported ONNXIFI float64 kind. -/
def cwDouble : onnxTensorDescriptorV1 :=
  ⟨"q", 0, 11, 0, fun _ => 0, fun _ => 0⟩

/-- A float32 CPU vector descriptor of shape [2], buffer i holding i+5. -/
def cwVec : onnxTensorDescriptorV1 :=
  ⟨"v", 0, 1, 1, fun _ => 2, fun i => (i : Int) + 5⟩

/-- A scalar float32 CPU descriptor named u (name distinct from w). -/
def cwPre : onnxTensorDescriptorV1 :=
  ⟨"u", 0, 1, 0, fun _ => 0, fun _ => 3⟩

/-- A uint64 CPU vector descriptor of shape [2] whose buffer holds the
negative value -1, exercising the signed-to-size_t narrowing. -/
def cwNeg : onnxTensorDescriptorV1 :=
  ⟨"n", 0, 13, 1, fun _ => 2, fun _ => -1⟩

/-- A graph declaring two inputs both named a: first float32 of shape
[2], then int64 scalar. -/
def netDupInputs : GraphProto :=
  ⟨[⟨"a", ⟨⟨1, ⟨[2]⟩⟩⟩⟩, ⟨"a", ⟨⟨7, ⟨[]⟩⟩⟩⟩], [], []⟩

/-- A float32 type declaration of shape [2, 3]. -/
def tFloat23 : TypeProto := ⟨⟨1, ⟨[2, 3]⟩⟩⟩

/-- An int64 scalar type declaration (empty shape). -/
def tInt64Scalar : TypeProto := ⟨⟨7, ⟨[]⟩⟩⟩

/-- A type declaration with the unsupported double tag 11. -/
def tDouble : TypeProto := ⟨⟨11, ⟨[4]⟩⟩⟩

end onnxifi
end glow

namespace glow
namespace onnxifi

/-- Mapping two functions over the same initial range gives equal lists
as soon as the functions agree below the bound. -/
theorem map_range_congr {α : Type} (f g : Nat → α) :
    ∀ n : Nat, (∀ i, i < n → f i = g i) →
      (List.range n).map f = (List.range n).map g := by
  intro n
  induction n with
  | zero => intro _; rfl
  | succ k ih =>
    intro h
    rw [List.range_succ, List.map_append, List.map_append,
      ih (fun i hi => h i (Nat.lt_succ_of_lt hi))]
    simp [h k (Nat.lt_succ_self k)]

/-- Element access in a mapped range below the bound. -/
theorem get_map_range {α : Type} (f : Nat → α) (n i : Nat) (h : i < n) :
    ((List.range n).map f).get? i = some (f i) := by
  simp [List.getElem?_map, List.getElem?_range h]

/-- Lookup distributes over list append when the key is found left. -/
theorem assocFind_append_some {α : Type} (m m2 : List (String × α))
    (k : String) (v : α) (h : assocFind m k = some v) :
    assocFind (m ++ m2) k = some v := by
  induction m with
  | nil => simp [assocFind] at h
  | cons p rest ih =>
    by_cases hp : p.1 = k
    · simpa [assocFind, hp] using by simpa [assocFind, hp] using h
    · simp [assocFind, hp] at h ⊢
      exact ih h

/-- Lookup distributes over list append when the key is absent left. -/
theorem assocFind_append_none {α : Type} (m m2 : List (String × α))
    (k : String) (h : assocFind m k = none) :
    assocFind (m ++ m2) k = assocFind m2 k := by
  induction m with
  | nil => rfl
  | cons p rest ih =>
    by_cases hp : p.1 = k
    · simp [assocFind, hp] at h
    · simp [assocFind, hp] at h ⊢
      exact ih h

/-- Subscript assignment makes the assigned key map to the new value. -/
theorem assocFind_mapAssign_self {α : Type} (m : List (String × α))
    (k : String) (v : α) : assocFind (mapAssign m k v) k = some v := by
  induction m with
  | nil => simp [mapAssign, assocFind]
  | cons p rest ih =>
    by_cases hp : p.1 = k
    · simp [mapAssign, hp, assocFind]
    · simp [mapAssign, hp, assocFind, ih]

/-- Subscript assignment leaves other keys untouched. -/
theorem assocFind_mapAssign_ne {α : Type} (m : List (String × α))
    (k k2 : String) (v : α) (h : k ≠ k2) :
    assocFind (mapAssign m k v) k2 = assocFind m k2 := by
  induction m with
  | nil => simp [mapAssign, assocFind, h]
  | cons p rest ih =>
    by_cases hp : p.1 = k
    · simp [mapAssign, hp, assocFind, h]
    · simp [mapAssign, hp, assocFind, ih]

/-- A key present after a subscript assignment was the assigned key or
was already present. -/
theorem assocFind_mapAssign_isSome {α : Type} (m : List (String × α))
    (k k2 : String) (v : α)
    (h : (assocFind (mapAssign m k v) k2).isSome) :
    k2 = k ∨ (assocFind m k2).isSome := by
  by_cases hk : k = k2
  · exact Or.inl hk.symm
  · right
    rwa [assocFind_mapAssign_ne m k k2 v hk] at h

/-- A key present before a subscript assignment stays present. -/
theorem assocFind_mapAssign_mono {α : Type} (m : List (String × α))
    (k k2 : String) (v : α) (h : (assocFind m k2).isSome) :
    (assocFind (mapAssign m k v) k2).isSome := by
  by_cases hk : k = k2
  · subst hk
    simp [assocFind_mapAssign_self]
  · rwa [assocFind_mapAssign_ne m k k2 v hk]

end onnxifi
end glow

namespace glow
namespace onnxifi

/-- Branch equation of loadWeight for a host-addressable float32
descriptor. -/
theorem loadWeight_float (d : onnxTensorDescriptorV1)
    (hmem : d.memoryType = ONNXIFI_MEMORY_TYPE_CPU)
    (hdt : d.dataType = ONNXIFI_DATATYPE_FLOAT32) :
    loadWeight d = LoadWeightResult.ok
      ⟨ElemKind.FloatTy, descDims d,
        (List.range (listProd (descDims d))).map (fun i => d.buffer i)⟩ := by
  simp [loadWeight, hmem, hdt]

/-- Branch equation of loadWeight for a host-addressable uint64
descriptor. -/
theorem loadWeight_uint64 (d : onnxTensorDescriptorV1)
    (hmem : d.memoryType = ONNXIFI_MEMORY_TYPE_CPU)
    (hdt : d.dataType = ONNXIFI_DATATYPE_UINT64) :
    loadWeight d = LoadWeightResult.ok
      ⟨ElemKind.IndexTy, descDims d,
        (List.range (listProd (descDims d))).map
          (fun i => (int64ToSizeT (d.buffer i) : Int))⟩ := by
  have h1 : d.dataType ≠ ONNXIFI_DATATYPE_FLOAT32 := by
    rw [hdt]; decide
  simp [loadWeight, hmem, hdt, h1]
  decide

/-- Branch equation of loadWeight for a descriptor outside host memory. -/
theorem loadWeight_nonCPU (d : onnxTensorDescriptorV1)
    (hmem : d.memoryType ≠ ONNXIFI_MEMORY_TYPE_CPU) :
    loadWeight d = LoadWeightResult.fail := by
  simp [loadWeight, hmem]

/-- Branch equation of loadWeight for a host-addressable descriptor
with an unsupported element kind. -/
theorem loadWeight_unsupported (d : onnxTensorDescriptorV1)
    (hmem : d.memoryType = ONNXIFI_MEMORY_TYPE_CPU)
    (h1 : d.dataType ≠ ONNXIFI_DATATYPE_FLOAT32)
    (h2 : d.dataType ≠ ONNXIFI_DATATYPE_UINT64) :
    loadWeight d = LoadWeightResult.fatal
      "Only float and index tensors are supported" := by
  simp [loadWeight, hmem, h1, h2]

/-- Two descriptors agreeing on the fields loadWeight reads yield equal
dims vectors. -/
theorem descDims_congr (d2 d : onnxTensorDescriptorV1)
    (hdim : d2.dimensions = d.dimensions)
    (hsh : ∀ i, i < d.dimensions → d2.shape i = d.shape i) :
    descDims d2 = descDims d := by
  unfold descDims
  rw [hdim]
  exact map_range_congr d2.shape d.shape d.dimensions hsh

/-- A list of descriptors that all materialize runs loadWeightsFrom to a
successful end, and appending more descriptors continues from the table
it built. -/
theorem loadWeightsFrom_all_ok (pre : List onnxTensorDescriptorV1) :
    ∀ init : List (String × Tensor),
      (∀ p ∈ pre, ∃ T, loadWeight p = LoadWeightResult.ok T) →
      ∃ tbl, loadWeightsFrom init pre = LoadWeightsResult.res true tbl ∧
        ∀ ds, loadWeightsFrom init (pre ++ ds) = loadWeightsFrom tbl ds := by
  induction pre with
  | nil =>
    intro init _
    exact ⟨init, rfl, fun ds => rfl⟩
  | cons d rest ih =>
    intro init hok
    obtain ⟨T, hT⟩ := hok d (List.mem_cons_self d rest)
    obtain ⟨tbl, h1, h2⟩ :=
      ih (mapAssign init d.name T) (fun p hp => hok p (List.mem_cons_of_mem d hp))
    refine ⟨tbl, ?_, ?_⟩
    · simp [loadWeightsFrom, hT, h1]
    · intro ds
      simp [loadWeightsFrom, hT, h2 ds]

/-- Any key present in the table built by a successful loadWeightsFrom
run was present initially or is the name of a processed descriptor. -/
theorem loadWeightsFrom_keys (pre : List onnxTensorDescriptorV1) :
    ∀ init tbl, loadWeightsFrom init pre = LoadWeightsResult.res true tbl →
      ∀ k, (assocFind tbl k).isSome →
        (assocFind init k).isSome ∨ ∃ p ∈ pre, p.name = k := by
  induction pre with
  | nil =>
    intro init tbl h k hk
    simp only [loadWeightsFrom, LoadWeightsResult.res.injEq] at h
    obtain ⟨-, rfl⟩ := h
    exact Or.inl hk
  | cons d rest ih =>
    intro init tbl h k hk
    cases hlw : loadWeight d with
    | fail => simp [loadWeightsFrom, hlw] at h
    | fatal msg => simp [loadWeightsFrom, hlw] at h
    | ok T =>
      simp only [loadWeightsFrom, hlw] at h
      rcases ih (mapAssign init d.name T) tbl h k hk with hin | ⟨p, hp, hpk⟩
      · rcases assocFind_mapAssign_isSome init d.name k T hin with hkd | hinit
        · exact Or.inr ⟨d, List.mem_cons_self d rest, hkd.symm⟩
        · exact Or.inl hinit
      · exact Or.inr ⟨p, List.mem_cons_of_mem d hp, hpk⟩

/-- Keys present initially stay present through a successful
loadWeightsFrom run, and every processed descriptor's name is present in
the final table. -/
theorem loadWeightsFrom_names (pre : List onnxTensorDescriptorV1) :
    ∀ init tbl, loadWeightsFrom init pre = LoadWeightsResult.res true tbl →
      (∀ k, (assocFind init k).isSome → (assocFind tbl k).isSome) ∧
      ∀ p ∈ pre, (assocFind tbl p.name).isSome := by
  induction pre with
  | nil =>
    intro init tbl h
    simp only [loadWeightsFrom, LoadWeightsResult.res.injEq] at h
    obtain ⟨-, rfl⟩ := h
    exact ⟨fun k hk => hk, fun p hp => absurd hp (List.not_mem_nil p)⟩
  | cons d rest ih =>
    intro init tbl h
    cases hlw : loadWeight d with
    | fail => simp [loadWeightsFrom, hlw] at h
    | fatal msg => simp [loadWeightsFrom, hlw] at h
    | ok T =>
      simp only [loadWeightsFrom, hlw] at h
      obtain ⟨hmono, hmem⟩ := ih (mapAssign init d.name T) tbl h
      refine ⟨fun k hk => hmono k (assocFind_mapAssign_mono init d.name k T hk), ?_⟩
      intro p hp
      rcases List.mem_cons.mp hp with hpd | hpr
      · subst hpd
        exact hmono p.name (by simp [assocFind_mapAssign_self])
      · exact hmem p hpr

end onnxifi
end glow

namespace glow
namespace onnxifi

/-- Keys already bound in the input map keep their binding through
loadInputsAux: try_emplace never overwrites. -/
theorem loadInputsAux_keeps (l : List ValueInfoProto) :
    ∀ m0 m, loadInputsAux l m0 = Except.ok m →
      ∀ n v, assocFind m0 n = some v → assocFind m n = some v := by
  induction l with
  | nil =>
    intro m0 m h n v hv
    simp only [loadInputsAux, Except.ok.injEq] at h
    rw [← h]
    exact hv
  | cons inp rest ih =>
    intro m0 m h n v hv
    cases hst : setTensorType inp.type with
    | error msg => simp [loadInputsAux, hst] at h
    | ok T =>
      simp only [loadInputsAux, hst] at h
      refine ih _ m h n v ?_
      unfold tryEmplace
      cases hfind : assocFind m0 inp.name with
      | some w => exact hv
      | none => exact assocFind_append_some m0 _ n v hv

/-- Keys absent from the initial input map end up bound to the variable
of the FIRST declared input bearing that name, if any. -/
theorem loadInputsAux_first (l : List ValueInfoProto) :
    ∀ m0 m, loadInputsAux l m0 = Except.ok m →
      ∀ n, assocFind m0 n = none →
        assocFind m n =
          (l.find? (fun i => i.name = n)).map varOfInput := by
  induction l with
  | nil =>
    intro m0 m h n hn
    simp only [loadInputsAux, Except.ok.injEq] at h
    rw [← h]
    simp [hn]
  | cons inp rest ih =>
    intro m0 m h n hn
    cases hst : setTensorType inp.type with
    | error msg => simp [loadInputsAux, hst] at h
    | ok T =>
      simp only [loadInputsAux, hst] at h
      by_cases hname : inp.name = n
      · subst hname
        have hm1 : assocFind (tryEmplace m0 inp.name
            (createAndRememberVariable inp.name T VisibilityKind.Public))
            inp.name = some (createAndRememberVariable inp.name T
              VisibilityKind.Public) := by
          unfold tryEmplace
          rw [hn]
          rw [assocFind_append_none m0 _ inp.name hn]
          simp [assocFind]
        have hfinal := loadInputsAux_keeps rest _ m h inp.name _ hm1
        rw [hfinal]
        have hfind : List.find? (fun i => i.name = inp.name) (inp :: rest) =
            some inp := List.find?_cons_of_pos rest (by simp)
        rw [hfind]
        simp [varOfInput, createAndRememberVariable, hst]
      · have hm1 : assocFind (tryEmplace m0 inp.name
            (createAndRememberVariable inp.name T VisibilityKind.Public))
            n = none := by
          unfold tryEmplace
          cases hfind : assocFind m0 inp.name with
          | some w => exact hn
          | none =>
            rw [assocFind_append_none m0 _ n hn]
            simp [assocFind, hname]
        rw [ih _ m h n hm1]
        have hfind : List.find? (fun i => i.name = n) (inp :: rest) =
            List.find? (fun i => i.name = n) rest :=
          List.find?_cons_of_neg rest (by simp [hname])
        rw [hfind]

end onnxifi
end glow

namespace glow
namespace onnxifi

/-- A supported host-addressable descriptor is copied exactly: the
tensor's shape is the stated dims, its element count their product, each
element the converted source element. -/
theorem copiesExactly_of_supported (d : onnxTensorDescriptorV1)
    (hmem : d.memoryType = ONNXIFI_MEMORY_TYPE_CPU)
    (hdt : d.dataType = ONNXIFI_DATATYPE_FLOAT32 ∨
      d.dataType = ONNXIFI_DATATYPE_UINT64) :
    CopiesExactly d := by
  rcases hdt with hf | hu
  · refine ⟨_, loadWeight_float d hmem hf, rfl, by simp, ?_⟩
    intro i hi
    rw [get_map_range _ _ i hi]
    have hne : d.dataType ≠ ONNXIFI_DATATYPE_UINT64 := by rw [hf]; decide
    simp [hne]
  · refine ⟨_, loadWeight_uint64 d hmem hu, rfl, by simp, ?_⟩
    intro i hi
    rw [get_map_range _ _ i hi]
    simp [hu]

/-- A supported host-addressable descriptor is read exactly: loadWeight
depends only on the fields and the buffer prefix the loops touch. -/
theorem readsExactly_of_supported (d : onnxTensorDescriptorV1)
    (hmem : d.memoryType = ONNXIFI_MEMORY_TYPE_CPU)
    (hdt : d.dataType = ONNXIFI_DATATYPE_FLOAT32 ∨
      d.dataType = ONNXIFI_DATATYPE_UINT64) :
    ReadsExactly d := by
  intro d2 h1 h2 h3 h4 h5
  have hdd : descDims d2 = descDims d := descDims_congr d2 d h3 h4
  rcases hdt with hf | hu
  · rw [loadWeight_float d hmem hf,
      loadWeight_float d2 (by rw [h1, hmem]) (by rw [h2, hf]), hdd,
      map_range_congr (fun i => d2.buffer i) (fun i => d.buffer i) _ h5]
  · rw [loadWeight_uint64 d hmem hu,
      loadWeight_uint64 d2 (by rw [h1, hmem]) (by rw [h2, hu]), hdd,
      map_range_congr (fun i => (int64ToSizeT (d2.buffer i) : Int))
        (fun i => (int64ToSizeT (d.buffer i) : Int)) _
        (fun i hi => by simp [h5 i hi])]

/-- C1: the claim says parseOperator on a model with exactly one node
named Relu returns (ReluNodeKind, FloatTy).  The code tests the
loadProto success flag WITHOUT the negation its sibling parse uses, so
on a successfully deserialized one-Relu model it returns no result; the
operator lookup table itself (parseOperatorBody) would have produced the
claimed pair, pinpointing the inverted test as the defect.  On
undeserializable bytes it also returns no result, via the empty
default-constructed model. -/
theorem c1_parseOperator_inverted_loadProto :
    parseOperator (some reluModelProto) = none ∧
    parseOperatorBody reluModelProto =
      some (KindedKind.ReluNodeKind, ElemKind.FloatTy) ∧
    parseOperator none = none := by
  refine ⟨rfl, ?_, rfl⟩
  decide

/-- C2: a type declaration or a host-addressable weight descriptor whose
element kind lies outside the supported set (float32/int64 for type
resolution, float32/uint64 for weight materialization) hits the fatal
assert/llvm_unreachable branch, not a recoverable failure; with a
supported kind the fatal branch is not reached. -/
theorem c2_unsupported_kind_fatal :
    (∀ t : TypeProto, t.tensor_type.elem_type ≠ TensorProto_FLOAT →
      t.tensor_type.elem_type ≠ TensorProto_INT64 →
      setTensorType t =
        Except.error "Only float and index tensors are supported") ∧
    (∀ t : TypeProto, (t.tensor_type.elem_type = TensorProto_FLOAT ∨
        t.tensor_type.elem_type = TensorProto_INT64) →
      ∃ T, setTensorType t = Except.ok T) ∧
    (∀ d : onnxTensorDescriptorV1, d.memoryType = ONNXIFI_MEMORY_TYPE_CPU →
      d.dataType ≠ ONNXIFI_DATATYPE_FLOAT32 →
      d.dataType ≠ ONNXIFI_DATATYPE_UINT64 →
      loadWeight d =
        LoadWeightResult.fatal "Only float and index tensors are supported") ∧
    (∀ d : onnxTensorDescriptorV1, d.memoryType = ONNXIFI_MEMORY_TYPE_CPU →
      (d.dataType = ONNXIFI_DATATYPE_FLOAT32 ∨
        d.dataType = ONNXIFI_DATATYPE_UINT64) →
      ∃ T, loadWeight d = LoadWeightResult.ok T) := by
  refine ⟨?_, ?_, ?_, ?_⟩
  · intro t h1 h2
    simp [setTensorType, h1, h2]
  · intro t hdt
    rcases hdt with hf | hi
    · exact ⟨⟨ElemKind.FloatTy, t.tensor_type.shape.dim, []⟩,
        by simp [setTensorType, hf]⟩
    · refine ⟨⟨ElemKind.IndexTy, t.tensor_type.shape.dim, []⟩, ?_⟩
      have hne : TensorProto_INT64 ≠ TensorProto_FLOAT := by decide
      simp [setTensorType, hi, hne]
  · intro d hmem h1 h2
    exact loadWeight_unsupported d hmem h1 h2
  · intro d hmem hdt
    obtain ⟨T, hT, -⟩ := copiesExactly_of_supported d hmem hdt
    exact ⟨T, hT⟩

/-- C2 witness: the fatal and non-fatal branches at concrete inputs
(double-tagged declaration and descriptor; float32 declaration and
descriptor). -/
theorem c2_witness :
    setTensorType tDouble =
      Except.error "Only float and index tensors are supported" ∧
    (∃ T, setTensorType tFloat23 = Except.ok T) ∧
    loadWeight cwDouble =
      LoadWeightResult.fatal "Only float and index tensors are supported" ∧
    (∃ T, loadWeight cwFloat1 = LoadWeightResult.ok T) :=
  ⟨c2_unsupported_kind_fatal.1 tDouble (by decide) (by decide),
   c2_unsupported_kind_fatal.2.1 tFloat23 (Or.inl rfl),
   c2_unsupported_kind_fatal.2.2.1 cwDouble rfl (by decide) (by decide),
   c2_unsupported_kind_fatal.2.2.2 cwFloat1 rfl (Or.inl rfl)⟩

/-- C3: a host-addressable descriptor with a supported element kind is
materialized with element count equal to the product of the stated
shape, elementwise equal to the converted source prefix (identity for
float32, int64-to-size_t narrowing for the integer kind), reading
exactly that prefix of the source. -/
theorem c3_materializes_exactly (d : onnxTensorDescriptorV1)
    (hmem : d.memoryType = ONNXIFI_MEMORY_TYPE_CPU)
    (hdt : d.dataType = ONNXIFI_DATATYPE_FLOAT32 ∨
      d.dataType = ONNXIFI_DATATYPE_UINT64) :
    MaterializesExactly d :=
  ⟨copiesExactly_of_supported d hmem hdt,
   readsExactly_of_supported d hmem hdt⟩

/-- C3 witness: the materialization contract at a concrete float32
vector descriptor of shape [2]. -/
theorem c3_witness : MaterializesExactly cwVec :=
  c3_materializes_exactly cwVec rfl (Or.inl rfl)

/-- C5 counterexample: a host-addressable descriptor tagged
ONNXIFI_DATATYPE_INT64 (64-bit signed integer) is NOT materialized; it
hits the fatal llvm_unreachable branch, because loadWeight dispatches
only on the FLOAT32 and UINT64 tags. -/
theorem c5_counterexample :
    loadWeight cwInt64 =
      LoadWeightResult.fatal "Only float and index tensors are supported" := by
  decide

/-- C5 as amended: the supported element kinds are exactly 32-bit float
and 64-bit UNSIGNED integer (whose buffer the code nonetheless reads as
signed 64-bit values before narrowing to size_t); a host-addressable
descriptor with one of those tags is materialized with the declared
shape and conversion copy, while a descriptor tagged as 64-bit signed
integer reaches the fatal unsupported-kind branch. -/
theorem c5_amended_supported_set (d : onnxTensorDescriptorV1)
    (hmem : d.memoryType = ONNXIFI_MEMORY_TYPE_CPU) :
    ((d.dataType = ONNXIFI_DATATYPE_FLOAT32 ∨
        d.dataType = ONNXIFI_DATATYPE_UINT64) → CopiesExactly d) ∧
    (d.dataType = ONNXIFI_DATATYPE_INT64 →
      loadWeight d =
        LoadWeightResult.fatal "Only float and index tensors are supported") := by
  constructor
  · intro hdt
    exact copiesExactly_of_supported d hmem hdt
  · intro hi
    refine loadWeight_unsupported d hmem ?_ ?_
    · rw [hi]; decide
    · rw [hi]; decide

/-- C5 amended witness: a uint64 descriptor holding the negative source
value -1 is materialized (exercising the narrowing), and the concrete
int64-tagged descriptor is fatal. -/
theorem c5_amended_witness :
    CopiesExactly cwNeg ∧
    loadWeight cwInt64 =
      LoadWeightResult.fatal "Only float and index tensors are supported" :=
  ⟨(c5_amended_supported_set cwNeg rfl).1 (Or.inr rfl),
   (c5_amended_supported_set cwInt64 rfl).2 rfl⟩

/-- C6 counterexample: two successfully materialized descriptors sharing
the name w; the first registration stores the tensor with payload [1],
yet after the second descriptor the table maps w to the tensor with
payload [2]; the earlier registration was silently replaced, and the two
tensors differ. -/
theorem c6_counterexample :
    loadWeight cwFloat1 =
      LoadWeightResult.ok ⟨ElemKind.FloatTy, [], [1]⟩ ∧
    loadWeights [cwFloat1, cwFloat2] =
      LoadWeightsResult.res true [("w", ⟨ElemKind.FloatTy, [], [2]⟩)] ∧
    (⟨ElemKind.FloatTy, [], [1]⟩ : Tensor) ≠ ⟨ElemKind.FloatTy, [], [2]⟩ := by
  refine ⟨by decide, by decide, by decide⟩

/-- C6 as amended: the weight table registration uses std::map subscript
assignment, i.e. last-writer-wins: each successful materialization
stores its tensor under the descriptor's name, overwriting any tensor
previously registered under that name; duplicate names are neither
detected nor rejected. -/
theorem c6_amended_lastwriterwins (tensors : List (String × Tensor))
    (d : onnxTensorDescriptorV1) (rest : List onnxTensorDescriptorV1)
    (T : Tensor) (h : loadWeight d = LoadWeightResult.ok T) :
    loadWeightsFrom tensors (d :: rest) =
      loadWeightsFrom (mapAssign tensors d.name T) rest ∧
    assocFind (mapAssign tensors d.name T) d.name = some T :=
  ⟨by simp [loadWeightsFrom, h], assocFind_mapAssign_self tensors d.name T⟩

/-- C6 amended witness: overwriting registration at the concrete
duplicate-name input. -/
theorem c6_amended_witness :
    loadWeightsFrom [("w", (⟨ElemKind.FloatTy, [], [1]⟩ : Tensor))]
        [cwFloat2] =
      loadWeightsFrom (mapAssign [("w", (⟨ElemKind.FloatTy, [], [1]⟩ : Tensor))]
        cwFloat2.name ⟨ElemKind.FloatTy, [], [2]⟩) [] ∧
    assocFind (mapAssign [("w", (⟨ElemKind.FloatTy, [], [1]⟩ : Tensor))]
        cwFloat2.name ⟨ElemKind.FloatTy, [], [2]⟩) cwFloat2.name =
      some ⟨ElemKind.FloatTy, [], [2]⟩ :=
  c6_amended_lastwriterwins [("w", (⟨ElemKind.FloatTy, [], [1]⟩ : Tensor))]
    cwFloat2 [] ⟨ElemKind.FloatTy, [], [2]⟩ rfl

/-- C8: a type declaration with a supported element kind resolves to a
tensor whose shape is exactly the declared ordered dimension sequence
(the empty sequence included) and whose element kind follows the closed
table: float32 to FloatTy, int64 to the native IndexTy. -/
theorem c8_setTensorType_exact (t : TypeProto) :
    (t.tensor_type.elem_type = TensorProto_FLOAT →
      setTensorType t =
        Except.ok ⟨ElemKind.FloatTy, t.tensor_type.shape.dim, []⟩) ∧
    (t.tensor_type.elem_type = TensorProto_INT64 →
      setTensorType t =
        Except.ok ⟨ElemKind.IndexTy, t.tensor_type.shape.dim, []⟩) := by
  constructor
  · intro h
    simp [setTensorType, h]
  · intro h
    have hne : TensorProto_INT64 ≠ TensorProto_FLOAT := by decide
    simp [setTensorType, h, hne]

/-- C8 witness: the float32 [2,3] declaration and the int64 scalar
(empty shape) declaration resolve as claimed. -/
theorem c8_witness :
    setTensorType tFloat23 =
      Except.ok ⟨ElemKind.FloatTy, tFloat23.tensor_type.shape.dim, []⟩ ∧
    setTensorType tInt64Scalar =
      Except.ok ⟨ElemKind.IndexTy, tInt64Scalar.tensor_type.shape.dim, []⟩ :=
  ⟨(c8_setTensorType_exact tFloat23).1 rfl,
   (c8_setTensorType_exact tInt64Scalar).2 rfl⟩

end onnxifi
end glow

namespace glow
namespace onnxifi

/-- Branch equation of parse when input registration hits the fatal
setTensorType assert. -/
theorem parse_some_inputs_error (m : ModelProto) (msg : String)
    (hin : loadInputs m.graph = Except.error msg)
    (ln son : GraphProto → Bool) (descs : List onnxTensorDescriptorV1) :
    parse (some m) ln son descs = Except.error msg := by
  simp only [parse]
  rw [hin]

/-- Branch equation of parse once input registration succeeded. -/
theorem parse_some_inputs_ok (m : ModelProto) (iv : List (String × Variable))
    (hin : loadInputs m.graph = Except.ok iv)
    (ln son : GraphProto → Bool) (descs : List onnxTensorDescriptorV1) :
    parse (some m) ln son descs =
      match loadWeights descs with
      | LoadWeightsResult.fatal msg => Except.error msg
      | LoadWeightsResult.res false _ => Except.ok none
      | LoadWeightsResult.res true tensors =>
        if ln m.graph then
          if son m.graph then Except.ok (some ⟨iv, tensors⟩)
          else Except.ok none
        else Except.ok none := by
  simp only [parse]
  rw [hin]

/-- Branch equation of parse when weight materialization fails
recoverably. -/
theorem parse_some_weights_false (m : ModelProto)
    (iv : List (String × Variable)) (tbl : List (String × Tensor))
    (hin : loadInputs m.graph = Except.ok iv)
    (ln son : GraphProto → Bool) (descs : List onnxTensorDescriptorV1)
    (hlw : loadWeights descs = LoadWeightsResult.res false tbl) :
    parse (some m) ln son descs = Except.ok none := by
  rw [parse_some_inputs_ok m iv hin ln son descs, hlw]

/-- Branch equation of parse when weight materialization succeeds. -/
theorem parse_some_weights_true (m : ModelProto)
    (iv : List (String × Variable)) (tbl : List (String × Tensor))
    (hin : loadInputs m.graph = Except.ok iv)
    (ln son : GraphProto → Bool) (descs : List onnxTensorDescriptorV1)
    (hlw : loadWeights descs = LoadWeightsResult.res true tbl) :
    parse (some m) ln son descs =
      (if ln m.graph then
        if son m.graph then Except.ok (some ⟨iv, tbl⟩) else Except.ok none
      else Except.ok none) := by
  rw [parse_some_inputs_ok m iv hin ln son descs, hlw]

/-- C7: parse returns a loader exactly when every pipeline stage
succeeds (deserialization, input registration, weight materialization,
graph building, output resolution), and each listed stage failure makes
it return no result; no partially constructed loader is ever handed
out. -/
theorem c7_pipeline_shortcircuit (lp : Option ModelProto)
    (ln son : GraphProto → Bool) (descs : List onnxTensorDescriptorV1) :
    ((∃ st, parse lp ln son descs = Except.ok (some st)) ↔
      ∃ m, lp = some m ∧ (∃ iv, loadInputs m.graph = Except.ok iv) ∧
        (∃ tbl, loadWeights descs = LoadWeightsResult.res true tbl) ∧
        ln m.graph = true ∧ son m.graph = true) ∧
    (lp = none → parse lp ln son descs = Except.ok none) ∧
    (∀ m, lp = some m → (∃ iv, loadInputs m.graph = Except.ok iv) →
      (∃ tbl, loadWeights descs = LoadWeightsResult.res false tbl) →
      parse lp ln son descs = Except.ok none) ∧
    (∀ m, lp = some m → (∃ iv, loadInputs m.graph = Except.ok iv) →
      (∃ tbl, loadWeights descs = LoadWeightsResult.res true tbl) →
      ln m.graph = false → parse lp ln son descs = Except.ok none) ∧
    (∀ m, lp = some m → (∃ iv, loadInputs m.graph = Except.ok iv) →
      (∃ tbl, loadWeights descs = LoadWeightsResult.res true tbl) →
      son m.graph = false → parse lp ln son descs = Except.ok none) := by
  refine ⟨⟨?_, ?_⟩, ?_, ?_, ?_, ?_⟩
  · rintro ⟨st, hst⟩
    cases lp with
    | none => simp [parse] at hst
    | some m =>
      refine ⟨m, rfl, ?_⟩
      cases hin : loadInputs m.graph with
      | error msg => rw [parse_some_inputs_error m msg hin ln son descs] at hst; simp at hst
      | ok iv =>
        cases hlw : loadWeights descs with
        | fatal msg =>
          rw [parse_some_inputs_ok m iv hin ln son descs, hlw] at hst
          simp at hst
        | res b tbl =>
          cases b with
          | false =>
            rw [parse_some_weights_false m iv tbl hin ln son descs hlw] at hst
            simp at hst
          | true =>
            rw [parse_some_weights_true m iv tbl hin ln son descs hlw] at hst
            refine ⟨⟨iv, rfl⟩, ⟨tbl, rfl⟩, ?_, ?_⟩
            · cases hln : ln m.graph with
              | false => rw [hln] at hst; simp at hst
              | true => rfl
            · cases hson : son m.graph with
              | false => rw [hson] at hst; simp at hst
              | true => rfl
  · rintro ⟨m, rfl, ⟨iv, hin⟩, ⟨tbl, hlw⟩, hln, hson⟩
    refine ⟨⟨iv, tbl⟩, ?_⟩
    rw [parse_some_weights_true m iv tbl hin ln son descs hlw, hln, hson]
    simp
  · rintro rfl
    rfl
  · rintro m rfl ⟨iv, hin⟩ ⟨tbl, hlw⟩
    exact parse_some_weights_false m iv tbl hin ln son descs hlw
  · rintro m rfl ⟨iv, hin⟩ ⟨tbl, hlw⟩ hln
    rw [parse_some_weights_true m iv tbl hin ln son descs hlw, hln]
    simp
  · rintro m rfl ⟨iv, hin⟩ ⟨tbl, hlw⟩ hson
    rw [parse_some_weights_true m iv tbl hin ln son descs hlw, hson]
    simp

/-- C7 witness: no result on undeserializable bytes, on a failing
output-resolution stage, and on a failing weight descriptor. -/
theorem c7_witness :
    parse none (fun _ => true) (fun _ => true) [] = Except.ok none ∧
    parse (some modelEmpty) (fun _ => true) (fun _ => false) [] =
      Except.ok none ∧
    parse (some modelEmpty) (fun _ => true) (fun _ => true) [cwDev] =
      Except.ok none :=
  ⟨(c7_pipeline_shortcircuit none (fun _ => true) (fun _ => true) []).2.1 rfl,
   (c7_pipeline_shortcircuit (some modelEmpty) (fun _ => true) (fun _ => false)
      []).2.2.2.2 modelEmpty rfl ⟨[], rfl⟩ ⟨[], rfl⟩ rfl,
   (c7_pipeline_shortcircuit (some modelEmpty) (fun _ => true) (fun _ => true)
      [cwDev]).2.2.1 modelEmpty rfl ⟨[], rfl⟩ ⟨[], rfl⟩⟩

/-- C9: after input registration the entry of any name is the variable
built from the FIRST declared input bearing that name, in declaration
order; a later duplicate declaration does not replace it (try_emplace
semantics). -/
theorem c9_first_input_kept (net : GraphProto)
    (m : List (String × Variable)) (h : loadInputs net = Except.ok m)
    (n : String) :
    assocFind m n = (net.input.find? (fun i => i.name = n)).map varOfInput :=
  loadInputsAux_first net.input [] m h n rfl

/-- C9 witness: a graph declaring the name a twice (first float32 [2],
then int64 scalar) maps a to the variable of the first declaration. -/
theorem c9_witness :
    assocFind [("a", (⟨"a", ⟨ElemKind.FloatTy, [2], []⟩,
        VisibilityKind.Public⟩ : Variable))] "a" =
      (netDupInputs.input.find? (fun i => i.name = "a")).map varOfInput :=
  c9_first_input_kept netDupInputs
    [("a", ⟨"a", ⟨ElemKind.FloatTy, [2], []⟩, VisibilityKind.Public⟩)] rfl "a"

/-- C10: when every descriptor before the failing one materializes and
the i-th fails, loadWeights returns false with the weight table exactly
as built from the earlier descriptors; every earlier descriptor's name
is still registered — no rollback happens. -/
theorem c10_no_rollback (pre : List onnxTensorDescriptorV1)
    (d : onnxTensorDescriptorV1) (rest : List onnxTensorDescriptorV1)
    (hpre : ∀ p ∈ pre, ∃ T, loadWeight p = LoadWeightResult.ok T)
    (hd : loadWeight d = LoadWeightResult.fail) :
    ∃ tbl, loadWeightsFrom [] pre = LoadWeightsResult.res true tbl ∧
      loadWeights (pre ++ d :: rest) = LoadWeightsResult.res false tbl ∧
      ∀ p ∈ pre, (assocFind tbl p.name).isSome := by
  obtain ⟨tbl, h1, h2⟩ := loadWeightsFrom_all_ok pre [] hpre
  refine ⟨tbl, h1, ?_, (loadWeightsFrom_names pre [] tbl h1).2⟩
  unfold loadWeights
  rw [h2 (d :: rest)]
  simp [loadWeightsFrom, hd]

/-- C10 witness: one successful descriptor named u followed by a
device-memory descriptor named w; the failure-time table still holds u. -/
theorem c10_witness :
    ∃ tbl, loadWeightsFrom [] [cwPre] = LoadWeightsResult.res true tbl ∧
      loadWeights ([cwPre] ++ cwDev :: []) =
        LoadWeightsResult.res false tbl ∧
      ∀ p ∈ [cwPre], (assocFind tbl p.name).isSome :=
  c10_no_rollback [cwPre] cwDev []
    (fun p hp => by
      rw [List.mem_singleton] at hp
      subst hp
      exact ⟨⟨ElemKind.FloatTy, [], [3]⟩, rfl⟩)
    rfl

/-- C4 counterexample: a load whose descriptors are a successful CPU
descriptor named w followed by a device-memory descriptor also named w:
the materializer fails recoverably and the load fails, yet the weight
table at failure time DOES hold an entry under the failing descriptor's
name — the one registered by the earlier same-named descriptor. -/
theorem c4_counterexample :
    loadWeight cwDev = LoadWeightResult.fail ∧
    loadWeights [cwFloat1, cwDev] =
      LoadWeightsResult.res false [("w", ⟨ElemKind.FloatTy, [], [1]⟩)] ∧
    assocFind [("w", (⟨ElemKind.FloatTy, [], [1]⟩ : Tensor))] "w" =
      some ⟨ElemKind.FloatTy, [], [1]⟩ :=
  ⟨by decide, by decide, by decide⟩

/-- C4 as amended: a non-host-addressable descriptor makes the
materializer fail recoverably, the whole parse return no result, and the
weight table hold no entry under that descriptor's name PROVIDED no
earlier, successfully materialized descriptor bears the same name
(earlier same-named registrations persist, per the non-rollback
behavior of loadWeights). -/
theorem c4_amended_no_registration (pre : List onnxTensorDescriptorV1)
    (d : onnxTensorDescriptorV1) (rest : List onnxTensorDescriptorV1)
    (hmem : d.memoryType ≠ ONNXIFI_MEMORY_TYPE_CPU)
    (hpre : ∀ p ∈ pre, ∃ T, loadWeight p = LoadWeightResult.ok T)
    (hname : ∀ p ∈ pre, p.name ≠ d.name)
    (m : ModelProto) (iv : List (String × Variable))
    (hin : loadInputs m.graph = Except.ok iv)
    (ln son : GraphProto → Bool) :
    loadWeight d = LoadWeightResult.fail ∧
    parse (some m) ln son (pre ++ d :: rest) = Except.ok none ∧
    ∃ tbl, loadWeights (pre ++ d :: rest) =
        LoadWeightsResult.res false tbl ∧
      assocFind tbl d.name = none := by
  have hfail : loadWeight d = LoadWeightResult.fail := loadWeight_nonCPU d hmem
  obtain ⟨tbl, h1, h2⟩ := loadWeightsFrom_all_ok pre [] hpre
  have hlw : loadWeights (pre ++ d :: rest) =
      LoadWeightsResult.res false tbl := by
    unfold loadWeights
    rw [h2 (d :: rest)]
    simp [loadWeightsFrom, hfail]
  refine ⟨hfail, parse_some_weights_false m iv tbl hin ln son _ hlw, tbl, hlw, ?_⟩
  by_cases hsome : (assocFind tbl d.name).isSome
  · rcases loadWeightsFrom_keys pre [] tbl h1 d.name hsome with hinit | ⟨p, hp, hpk⟩
    · simp [assocFind] at hinit
    · exact absurd hpk (hname p hp)
  · exact Option.not_isSome_iff_eq_none.mp hsome

/-- C4 amended witness: the amended statement at the concrete input with
a distinct earlier name u and the failing device-memory descriptor w. -/
theorem c4_amended_witness :
    loadWeight cwDev = LoadWeightResult.fail ∧
    parse (some modelEmpty) (fun _ => true) (fun _ => true)
      ([cwPre] ++ cwDev :: []) = Except.ok none ∧
    ∃ tbl, loadWeights ([cwPre] ++ cwDev :: []) =
        LoadWeightsResult.res false tbl ∧
      assocFind tbl cwDev.name = none :=
  c4_amended_no_registration [cwPre] cwDev [] (by decide)
    (fun p hp => by
      rw [List.mem_singleton] at hp
      subst hp
      exact ⟨⟨ElemKind.FloatTy, [], [3]⟩, rfl⟩)
    (fun p hp => by
      rw [List.mem_singleton] at hp
      subst hp
      decide)
    modelEmpty [] rfl (fun _ => true) (fun _ => true)

end onnxifi
end glow
